import Mathlib

/-!
Verification of the evolutionary TSP engine.

Shallow embedding of the core of the repository:
  * src/src/algorithms/base.py  (Population, Evolution)
  * src/src/algorithms/tsp.py   (TSP individual, run_tsp_evolution)
  * src/src/utils/metrics.py    (calculate_distances, tsp_fitness_creator,
    get_route_length)

Modelling conventions:
  * Individuals are their `value` field: a route, i.e. a list of city
    indices (`List Nat`).
  * Python floats are modelled by a linear ordered commutative ring with a
    division operation; theorems are instantiated at `Int` (for concrete
    kernel evaluation) and hold as well at the idealized `Rat` reading.
  * Randomness is modelled by oracles: every call of `random.sample`,
    `random.random` or `np.random.permutation` consumes a caller-supplied
    draw, and theorems quantify over all draws the sampler could produce.
  * Fallible code returns `Except Err`, with `Err` naming the Python
    exception the source would raise.
  * Console printing and `plt.savefig` calls are recorded in an effect
    trace; the text printed to stdout is abstracted to a marker since no
    property depends on it.
-/

namespace EvoTSP

/-- Python runtime errors that the embedded code can raise. -/
inductive Err where
  | valueError
  | indexError
  | zeroDivisionError
deriving DecidableEq

instance {ε α : Type} [DecidableEq ε] [DecidableEq α] : DecidableEq (Except ε α) := fun a b =>
  match a, b with
  | .ok x, .ok y => if h : x = y then .isTrue (by rw [h]) else .isFalse (by simp [h])
  | .error x, .error y => if h : x = y then .isTrue (by rw [h]) else .isFalse (by simp [h])
  | .ok _, .error _ => .isFalse (by simp)
  | .error _, .ok _ => .isFalse (by simp)

/-- Observable side effects of the run orchestration. -/
inductive Effect where
  | stdout
  | fileWrite (path : String)
  | envAccess
  | netAccess
deriving DecidableEq

/-- Recognizes file-system writes in an effect trace. -/
def Effect.isFileWrite : Effect → Bool := fun e =>
  match e with
  | .fileWrite _ => true
  | _ => false

/-- Recognizes environment-variable or network accesses in an effect trace. -/
def Effect.isEnvOrNet : Effect → Bool := fun e =>
  match e with
  | .envAccess => true
  | .netAccess => true
  | _ => false

/-- Embeds `random.sample(range(n), k)`: raises `ValueError` when the sample
is larger than the population (`k > n`); otherwise returns `k` distinct
indices below `n`.  The randomness is the `draw` oracle; an oracle value that
is not a valid sample is replaced by a canonical valid one, so that every
`ok` result is a list `random.sample` could actually return. -/
def sampleE (n k : Nat) (draw : List Nat) : Except Err (List Nat) :=
  if k > n then .error .valueError
  else .ok (if draw.length = k ∧ draw.Nodup ∧ ∀ x ∈ draw, x < n then draw else List.range k)

/-- Embeds `Population` (src/src/algorithms/base.py): a fitness function and
the list of individuals. -/
structure Population (ι β : Type) where
  fitness : ι → β
  individuals : List ι

/-- Embeds `Population.__init__`: create `size` individuals by random
initialization (`np.random.permutation`, modelled by the `initRoutes`
oracle, which never fails) and sort ascending by fitness.  Python
`list.sort(key=...)` is a stable ascending sort; it is modelled by an
insertion sort, which agrees with it on every list (no claim depends on the
placement of fitness ties, which the spec leaves arbitrary). -/
def populationInit {β : Type} [LinearOrderedCommRing β] (size : Nat)
    (fitness : List Nat → β) (initRoutes : Nat → List Nat) : Population (List Nat) β :=
  ⟨fitness, ((List.range size).map initRoutes).insertionSort (fun a b => fitness a ≤ fitness b)⟩

/-- Embeds `Population.replace`: extend the list with the new individuals,
re-sort ascending by fitness, then keep the Python slice `[-size:]` where
`size` is the pre-extension length.  For `size = 0` the Python slice `[-0:]`
is the whole list, hence the case split. -/
def Population.replace {β : Type} [LinearOrderedCommRing β]
    (pool : Population (List Nat) β) (newInds : List (List Nat)) : Population (List Nat) β :=
  let size := pool.individuals.length
  let all := (pool.individuals ++ newInds).insertionSort (fun a b => pool.fitness a ≤ pool.fitness b)
  ⟨pool.fitness, if size = 0 then all else all.drop (all.length - size)⟩

/-- Embeds `Population.get_best_individual`: `self.individuals[-1]`; `none`
models the `IndexError` raised on an empty list. -/
def Population.getBestIndividual {ι β : Type} (pool : Population ι β) : Option ι :=
  pool.individuals.getLast?

/-- Embeds `Population.tournament_selection`: sample `tournament_size`
distinct indices, then keep `best_idx`, replacing it only when a contestant
has strictly greater fitness (first-seen tie-break).  Indices delivered by
`sampleE` are always in range, so the `filterMap` lookup drops nothing; the
`[]` case is the `IndexError` Python raises on `contestants_indices[0]` when
the tournament size is zero. -/
def Population.tournamentSelectionE {ι β : Type} [LinearOrderedCommRing β]
    (pool : Population ι β) (tournamentSize : Nat) (draw : List Nat) : Except Err ι :=
  match sampleE pool.individuals.length tournamentSize draw with
  | .error e => .error e
  | .ok idxs =>
    match idxs.filterMap (fun i => pool.individuals[i]?) with
    | [] => .error .indexError
    | c :: rest => .ok (rest.foldl (fun best x => if pool.fitness best < pool.fitness x then x else best) c)

/-- Embeds the cut-point normalization in `TSP.pair`:
`start, end = sorted(random.sample(range(size), 2))`. -/
def pairCutDraw (a b : Nat) : Nat × Nat := (min a b, max a b)

/-- Embeds `child_p1 = self.value[start:end]` in `TSP.pair`. -/
def tspSeg (p1 : List Nat) (s e : Nat) : List Nat := (p1.drop s).take (e - s)

/-- Embeds `child_p2 = [city for city in other.value if city not in child_p1_set]`
in `TSP.pair`. -/
def tspRest (p1 p2 : List Nat) (s e : Nat) : List Nat :=
  p2.filter (fun c => decide (c ∉ tspSeg p1 s e))

/-- Embeds the deterministic part of `TSP.pair` given the cut points:
`child = child_p2[:start] + child_p1 + child_p2[start:]`. -/
def tspPairCore (p1 p2 : List Nat) (s e : Nat) : List Nat :=
  (tspRest p1 p2 s e).take s ++ tspSeg p1 s e ++ (tspRest p1 p2 s e).drop s

/-- Embeds `TSP.pair` including the cut-point sampling
(`random.sample(range(size), 2)`, which raises `ValueError` when the route
has fewer than two cities). -/
def tspPairE (p1 p2 : List Nat) (cutDraw : List Nat) : Except Err (List Nat) :=
  match sampleE p1.length 2 cutDraw with
  | .error e => .error e
  | .ok idxs =>
    match idxs with
    | [a, b] => .ok (tspPairCore p1 p2 (pairCutDraw a b).1 (pairCutDraw a b).2)
    | _ => .error .indexError

/-- Embeds `TSP.mutate`: with probability `rate` — the coin
`random.random() < rate` is modelled by the uniform draw `u` — swap the
values at two distinct positions drawn by `random.sample`; the simultaneous
Python assignment reads both old values before writing. -/
def tspMutateE {β : Type} [LinearOrderedCommRing β] (v : List Nat) (rate u : β)
    (draw : List Nat) : Except Err (List Nat × Bool) :=
  if u < rate then
    match sampleE v.length 2 draw with
    | .error e => .error e
    | .ok idxs =>
      match idxs with
      | [i, j] => .ok ((v.set i (v.getD j 0)).set j (v.getD i 0), true)
      | _ => .error .indexError
  else
    .ok (v, false)

/-- The random draws consumed while producing one offspring in
`Evolution.step`: two tournament samples, the crossover cut sample, the
mutation coin, and the mutation position sample. -/
structure OffspringRand (β : Type) where
  tdraw1 : List Nat
  tdraw2 : List Nat
  cutDraw : List Nat
  u : β
  mutDraw : List Nat

/-- Embeds `Evolution.step`: append the current `get_best_individual`
(elitism), then produce offspring — tournament selection twice, crossover,
mutation — until the new list reaches the old population length; finally
assign `self.pool.individuals = new_individuals` wholesale.  Note the
faithful omission of any re-sort of the new list.  Returns the new
population and the mutation count. -/
def evolutionStep {β : Type} [LinearOrderedCommRing β] (pool : Population (List Nat) β)
    (tournamentSize : Nat) (rate : β) (rands : Nat → OffspringRand β) :
    Except Err (Population (List Nat) β × Nat) :=
  match pool.getBestIndividual with
  | none => .error .indexError
  | some elite =>
    match (List.range (pool.individuals.length - 1)).foldlM
      (fun (acc : List (List Nat) × Nat) k =>
        let r := rands k
        match pool.tournamentSelectionE tournamentSize r.tdraw1 with
        | .error e => Except.error e
        | .ok parent1 =>
        match pool.tournamentSelectionE tournamentSize r.tdraw2 with
        | .error e => Except.error e
        | .ok parent2 =>
        match tspPairE parent1 parent2 r.cutDraw with
        | .error e => Except.error e
        | .ok child =>
        match tspMutateE child rate r.u r.mutDraw with
        | .error e => Except.error e
        | .ok childAndFlag =>
          Except.ok (acc.1 ++ [childAndFlag.1], acc.2 + if childAndFlag.2 then 1 else 0))
      ([elite], 0) with
    | .error e => .error e
    | .ok acc => .ok (⟨pool.fitness, acc.1⟩, acc.2)

/-- Embeds the `Evolution` engine state. -/
structure Evolution (β : Type) where
  pool : Population (List Nat) β
  nOffsprings : Nat
  tournamentSize : Nat
  rate : β
  alpha : β

/-- Embeds `Evolution.__init__` together with the `Population.__init__` it
performs.  Neither constructor contains any parameter validation, so
construction always succeeds; the `Except` result records that no
`InvalidInput`-style error can be produced here. -/
def evolutionInitE {β : Type} [LinearOrderedCommRing β] (poolSize : Nat)
    (fitness : List Nat → β) (nOffsprings : Nat) (rate alpha : β)
    (initRoutes : Nat → List Nat) (tournamentSize : Nat) : Except Err (Evolution β) :=
  .ok ⟨populationInit poolSize fitness initRoutes, nOffsprings, tournamentSize, rate, alpha⟩

/-- Embeds `calculate_distances` (src/src/utils/metrics.py): zero diagonal,
and for `i ≠ j` the value `np.linalg.norm(cities[i] - cities[j])`, modelled
by applying the `norm` parameter to the coordinate difference (the concrete
Euclidean square root is irrational and not used by any claim).  Entries
outside the matrix are never read by the embedded callers. -/
def calculateDistances {β : Type} [LinearOrderedCommRing β] (norm : β × β → β)
    (cities : List (β × β)) : Nat → Nat → β :=
  fun i j =>
    if i ≠ j then
      norm ((cities.getD i (0, 0)).1 - (cities.getD j (0, 0)).1,
            (cities.getD i (0, 0)).2 - (cities.getD j (0, 0)).2)
    else 0

/-- Embeds the closure returned by `tsp_fitness_creator`: the negated total
route length, accumulated over consecutive cities with wraparound
`(i + 1) % len` from the last city back to the first. -/
def tspFitness {β : Type} [LinearOrderedCommRing β] (distances : Nat → Nat → β)
    (route : List Nat) : β :=
  -((List.range route.length).foldl
      (fun acc i => acc + distances (route.getD i 0) (route.getD ((i + 1) % route.length) 0)) 0)

/-- Embeds `get_route_length` (src/src/utils/metrics.py): the total route
length, accumulated over consecutive cities with wraparound. -/
def getRouteLength {β : Type} [LinearOrderedCommRing β] (route : List Nat)
    (distances : Nat → Nat → β) : β :=
  (List.range route.length).foldl
    (fun acc i => acc + distances (route.getD i 0) (route.getD ((i + 1) % route.length) 0)) 0

/-- The record returned by `run_tsp_evolution` (wall-clock `runtime` is
elided: real time is outside the embedding and no claim mentions it). -/
structure RunResult (β : Type) where
  bestRoute : List Nat
  bestLength : β
  improvement : β
  lengthHistory : List β
  improvements : Nat
  lastImprovement : Nat
  totalMutations : Nat
deriving DecidableEq

/-- The loop state of the epoch loop in `run_tsp_evolution`. -/
structure LoopState (β : Type) where
  pool : Population (List Nat) β
  bestLengths : List β
  improvements : Nat
  lastImprovement : Nat
  bestRoute : List Nat
  totalMutations : Nat

/-- Embeds `run_tsp_evolution` (src/src/algorithms/tsp.py) and its
observable effect trace.  Console printing is collapsed to `stdout` markers
(one per print block; the printed text and the exact number of lines are
abstracted, as no claim depends on them).  The division
`total_mutations / n_epochs` in the verbose summary raises
`ZeroDivisionError` exactly when `verbose` holds and `n_epochs = 0`, and it
is reached before the two unconditional `plt.savefig` calls that write
`results/tsp_final_route.png` and `results/tsp_length_history.png`.
`city_names` defaults to stringified indices; the names feed only the
plotting calls.  The float expression
`((initial_length - final_length) / initial_length) * 100` is numpy
arithmetic and does not raise; it is carried in the `improvement` field. -/
def runTsp {β : Type} [LinearOrderedCommRing β] [Div β]
    (norm : β × β → β) (cities : List (β × β)) (cityNames : Option (List String))
    (populationSize tournamentSize : Nat) (mutationRate : β)
    (nOffsprings nEpochs : Nat) (crossoverAlpha : β) (verbose : Bool)
    (initRoutes : Nat → List Nat) (epochRands : Nat → Nat → OffspringRand β) :
    Except Err (RunResult β) × List Effect :=
  let nCities := cities.length
  let _names := match cityNames with
    | some ns => ns
    | none => (List.range nCities).map (fun i => toString i)
  let preOut : List Effect := if verbose then [.stdout] else []
  let distances := calculateDistances norm cities
  let fitness := tspFitness distances
  let evo : Evolution β :=
    ⟨populationInit populationSize fitness initRoutes, nOffsprings, tournamentSize,
     mutationRate, crossoverAlpha⟩
  match evo.pool.getBestIndividual with
  | none => (.error .indexError, preOut)
  | some best0 =>
    let initialLength := -(fitness best0)
    let core : Except Err (LoopState β) :=
      (List.range nEpochs).foldlM
        (fun (st : LoopState β) epoch =>
          match evolutionStep st.pool tournamentSize mutationRate (epochRands epoch) with
          | .error e => .error e
          | .ok stepped =>
            match stepped.1.getBestIndividual with
            | none => .error .indexError
            | some currentBest =>
              let currentLength := -(fitness currentBest)
              let prevLast := st.bestLengths.getLastD 0
              let improved := currentLength < prevLast
              .ok ⟨stepped.1,
                   st.bestLengths ++ [currentLength],
                   if improved then st.improvements + 1 else st.improvements,
                   if improved then epoch else st.lastImprovement,
                   if improved then currentBest else st.bestRoute,
                   st.totalMutations + stepped.2⟩)
        ⟨evo.pool, [initialLength], 0, 0, best0, 0⟩
    match core with
    | .error e => (.error e, preOut ++ if verbose then [.stdout] else [])
    | .ok st =>
      let finalLength := st.bestLengths.getLastD initialLength
      let improvementPct := ((initialLength - finalLength) / initialLength) * 100
      if verbose ∧ nEpochs = 0 then
        (.error .zeroDivisionError, preOut ++ [.stdout])
      else
        (.ok ⟨st.bestRoute, finalLength, improvementPct, st.bestLengths,
              st.improvements, st.lastImprovement, st.totalMutations⟩,
         preOut ++ (if verbose then [.stdout] else []) ++
           [.fileWrite "results/tsp_final_route.png",
            .fileWrite "results/tsp_length_history.png"])

/-!
Concrete inputs used to evaluate the embedded code.  The distance matrix
`distDemo` is symmetric with zero diagonal: the ring 0-1-2-3-0 has edge
cost 1 and the two diagonals cost 10, so the route `rGood = [0,1,2,3]` has
length 4 (fitness -4) and `rBad = [0,2,1,3]` has length 22 (fitness -22).
-/

/-- A concrete 4-city distance matrix (symmetric, zero diagonal). -/
def distDemo : Nat → Nat → Int := fun i j =>
  (([[0, 1, 10, 1], [1, 0, 1, 10], [10, 1, 0, 1], [1, 10, 1, 0]] : List (List Int)).getD i []).getD j 0

/-- The fitness closure over `distDemo`. -/
def fitDemo : List Nat → Int := tspFitness distDemo

/-- The short route of the demo instance. -/
def rGood : List Nat := [0, 1, 2, 3]

/-- The long route of the demo instance. -/
def rBad : List Nat := [0, 2, 1, 3]

/-- Initialization oracle producing `rGood` then `rBad`. -/
def initDemo : Nat → List Nat := fun i => if i = 0 then rGood else rBad

/-- A constructed 2-individual population over `distDemo`; sorted ascending
by fitness it is `[rBad, rGood]`. -/
def poolDemo0 : Population (List Nat) Int := populationInit 2 fitDemo initDemo

/-- Offspring draws: both tournaments pick index 0, the crossover cut sample
is `[0, 1]`, and the mutation coin `u = 1` never fires against rate 0. -/
def randDemo0 : Nat → OffspringRand Int := fun _ => ⟨[0], [0], [0, 1], 1, [0, 1]⟩

/-- Offspring draws picking index 1 in both tournaments, same otherwise. -/
def randDemo1 : Nat → OffspringRand Int := fun _ => ⟨[1], [1], [0, 1], 1, [0, 1]⟩

/-- The population an `Evolution.step` leaves behind (identity on error,
which does not occur at the uses below). -/
def afterStep {β : Type} [LinearOrderedCommRing β] (pool : Population (List Nat) β)
    (tournamentSize : Nat) (rate : β) (rands : Nat → OffspringRand β) :
    Population (List Nat) β :=
  match evolutionStep pool tournamentSize rate rands with
  | .ok stepped => stepped.1
  | .error _ => pool

/-- The demo population after one step: `[rGood, rBad]`, unsorted. -/
def poolDemo1 : Population (List Nat) Int := afterStep poolDemo0 1 0 randDemo0

/-- The demo population after a second step: `[rBad, rBad]`. -/
def poolDemo2 : Population (List Nat) Int := afterStep poolDemo1 1 0 randDemo1

/-- The greatest fitness value present in a population. -/
def maxFitness {ι β : Type} [LinearOrderedCommRing β] (pool : Population ι β) : Option β :=
  (pool.individuals.map pool.fitness).max?

/-- Unit-square demo cities. -/
def citiesDemo : List (Int × Int) := [(0, 0), (0, 1), (1, 1), (1, 0)]

/-- A concrete model of `np.linalg.norm` on the coordinate difference (the
squared Euclidean norm; any concrete choice works for the claims below). -/
def normDemo : Int × Int → Int := fun p => p.1 * p.1 + p.2 * p.2

/-- The run with `n_epochs = 0` and `verbose = True` (the source default). -/
def runDemoVerbose : Except Err (RunResult Int) × List Effect :=
  runTsp normDemo citiesDemo none 2 1 0 30 0 0 true initDemo (fun _ _ => ⟨[0], [0], [0, 1], 1, [0, 1]⟩)

/-- The same run with `verbose = False`. -/
def runDemoQuiet : Except Err (RunResult Int) × List Effect :=
  runTsp normDemo citiesDemo none 2 1 0 30 0 0 false initDemo (fun _ _ => ⟨[0], [0], [0, 1], 1, [0, 1]⟩)

/-- A completing run: one epoch, verbose. -/
def runDemoOneEpoch : Except Err (RunResult Int) × List Effect :=
  runTsp normDemo citiesDemo none 2 1 0 30 1 0 true initDemo (fun _ _ => ⟨[0], [0], [0, 1], 1, [0, 1]⟩)

/-!  Claim theorems. -/

/-- C7: for every distance matrix and every fixed route, the fitness value
produced by the closure that `tsp_fitness_creator(distances)` returns equals
the negation of `get_route_length(route, distances)`: both accumulate the
same wraparound sum of consecutive distances, and the fitness negates it. -/
theorem tsp_fitness_is_neg_route_length {β : Type} [LinearOrderedCommRing β]
    (distances : Nat → Nat → β) (route : List Nat) :
    tspFitness distances route = -getRouteLength route distances := rfl

/-- C1 fails on the code: `Evolution.step` assigns the new generation
wholesale without re-sorting.  Starting from the constructed (sorted)
population `poolDemo0 = [rBad, rGood]`, one step with tournament draws that
select index 0 leaves `individuals = [rGood, rBad]`; `get_best_individual`
(the last element) then returns `rBad` with fitness -22 although `rGood`
with fitness -4 is still in the population. -/
theorem step_breaks_get_best_invariant :
    (evolutionStep poolDemo0 1 0 randDemo0).map (fun stepped => stepped.1.individuals)
        = .ok [rGood, rBad]
    ∧ poolDemo1.getBestIndividual = some rBad
    ∧ rGood ∈ poolDemo1.individuals
    ∧ poolDemo1.fitness rBad < poolDemo1.fitness rGood := by decide

/-- C2 fails on the code: from the reachable state `poolDemo1 = [rGood, rBad]`
(one step after construction) the elitism slot carries `individuals[-1] = rBad`,
not the true best; with offspring draws that select index 1 the next
generation is `[rBad, rBad]`, so the maximal fitness present in the
population regresses from -4 to -22 across a single `Evolution.step`.  The
fitness reported through `get_best_individual` regresses already across the
first step, from `rGood` (-4) to `rBad` (-22). -/
theorem step_regresses_best_fitness :
    (evolutionStep poolDemo1 1 0 randDemo1).map (fun stepped => stepped.1.individuals)
        = .ok [rBad, rBad]
    ∧ maxFitness poolDemo1 = some (-4)
    ∧ maxFitness poolDemo2 = some (-22)
    ∧ poolDemo0.getBestIndividual = some rGood
    ∧ poolDemo1.getBestIndividual = some rBad
    ∧ fitDemo rBad < fitDemo rGood := by decide

/-- C3 fails on the code: constructing the engine with
`tournament_size = 3 > 2 = population_size` succeeds (no validation exists at
construction time), and the error instead surfaces during `Evolution.step`,
where `random.sample` raises `ValueError` at the first tournament. -/
theorem construction_accepts_oversized_tournament :
    (evolutionInitE 2 fitDemo 30 (0 : Int) 0 initDemo 3).isOk = true
    ∧ (evolutionStep poolDemo0 3 0 randDemo0).map (fun stepped => stepped.1.individuals)
        = .error Err.valueError := by decide

/-- C8 fails on the code for the default `verbose=True`: with `n_epochs = 0`
the verbose summary evaluates `total_mutations / n_epochs` and raises
`ZeroDivisionError`, so no `RunResult` is returned; with `verbose=False` the
run does return a result whose length history is the single initial best
length and whose best route is the initial best individual unchanged. -/
theorem zero_epochs_raises_zero_division :
    runDemoVerbose.1 = .error Err.zeroDivisionError
    ∧ runDemoQuiet.1.map (fun r => (r.lengthHistory, r.bestRoute)) = .ok ([4], rGood) := by decide

/-- C9 fails on the code: the effect trace of a completing run contains file
writes — `run_tsp_evolution` unconditionally saves the two plot files under
`results/` before returning. -/
theorem run_writes_plot_files :
    runDemoQuiet.2.filter Effect.isFileWrite
        = [.fileWrite "results/tsp_final_route.png", .fileWrite "results/tsp_length_history.png"]
    ∧ runDemoQuiet.2.filter Effect.isFileWrite ≠ [] := by decide

/-- Every successful sample is a valid one: the requested size fits the
range, and the result has the requested length, no duplicates, and all
entries below `n`. -/
theorem sampleE_ok_spec {n k : Nat} {draw l : List Nat} (h : sampleE n k draw = .ok l) :
    k ≤ n ∧ l.length = k ∧ l.Nodup ∧ ∀ x ∈ l, x < n := by
  unfold sampleE at h
  split at h
  · exact absurd h (by simp)
  · rename_i hkn
    rw [Except.ok.injEq] at h
    subst h
    refine ⟨Nat.le_of_not_lt hkn, ?_⟩
    split
    · rename_i hvalid
      exact hvalid
    · refine ⟨List.length_range k, List.nodup_range k, ?_⟩
      intro x hx
      exact Nat.lt_of_lt_of_le (List.mem_range.mp hx) (Nat.le_of_not_lt hkn)

/-- A draw that is already a valid sample is returned unchanged. -/
theorem sampleE_eq_of_valid {n k : Nat} {draw : List Nat} (hkn : k ≤ n)
    (hlen : draw.length = k) (hnd : draw.Nodup) (hmem : ∀ x ∈ draw, x < n) :
    sampleE n k draw = .ok draw := by
  unfold sampleE
  rw [if_neg (Nat.not_lt.mpr hkn), if_pos ⟨hlen, hnd, hmem⟩]

/-- A sample strictly larger than the range raises `ValueError`. -/
theorem sampleE_error_of_large {n k : Nat} (draw : List Nat) (h : n < k) :
    sampleE n k draw = .error Err.valueError := by
  unfold sampleE
  rw [if_pos h]

/-- C10: the two cut points of `TSP.pair` are drawn without replacement from
`range(size)` and then sorted, so every draw the operator can produce
satisfies `start < end ≤ size - 1`; in particular the configuration
`end = size` is never produced. -/
theorem pair_cut_points_strictly_inside (n : Nat) (draw l : List Nat)
    (hs : sampleE n 2 draw = .ok l) :
    ∃ a b, l = [a, b] ∧ (pairCutDraw a b).1 < (pairCutDraw a b).2
      ∧ (pairCutDraw a b).2 ≤ n - 1 ∧ (pairCutDraw a b).2 ≠ n := by
  obtain ⟨hkn, hlen, hnd, hmem⟩ := sampleE_ok_spec hs
  match l, hlen with
  | [a, b], _ =>
    have hab : a ≠ b := by
      intro hcontra
      subst hcontra
      simp at hnd
    have ha : a < n := hmem a (by simp)
    have hb : b < n := hmem b (by simp)
    refine ⟨a, b, rfl, ?_, ?_, ?_⟩ <;> (unfold pairCutDraw; simp only) <;> omega

/-- Witness for C10 at a concrete draw. -/
theorem pair_cut_points_strictly_inside_witness :
    ∃ a b, ([2, 0] : List Nat) = [a, b] ∧ (pairCutDraw a b).1 < (pairCutDraw a b).2
      ∧ (pairCutDraw a b).2 ≤ 4 - 1 ∧ (pairCutDraw a b).2 ≠ 4 :=
  pair_cut_points_strictly_inside 4 [2, 0] [2, 0] (by decide)

/-- Helper for the swap lemma: writing `x` at position `j` while moving the
old entry at `j` to the front permutes a cons of `x`. -/
theorem getD_cons_set_perm {α : Type} (d x : α) :
    ∀ (t : List α) (j : Nat), j < t.length → ((t.getD j d) :: t.set j x).Perm (x :: t)
  | y :: s, 0, _ => by
    simpa using List.Perm.swap x y s
  | y :: s, j + 1, h => by
    simp only [List.getD_cons_succ, List.set_cons_succ]
    exact ((List.Perm.swap y (s.getD j d) (s.set j x)).trans
      ((getD_cons_set_perm d x s j (by simpa using h)).cons y)).trans
      (List.Perm.swap x y s)

/-- The simultaneous swap `v[i], v[j] = v[j], v[i]` is a permutation of `v`. -/
theorem set_set_swap_perm {α : Type} (d : α) :
    ∀ (v : List α) (i j : Nat), i ≠ j → i < v.length → j < v.length →
      ((v.set i (v.getD j d)).set j (v.getD i d)).Perm v
  | _ :: _, 0, 0, hne, _, _ => absurd rfl hne
  | x :: t, 0, j + 1, _, _, hj => by
    simp only [List.getD_cons_zero, List.getD_cons_succ, List.set_cons_zero,
      List.set_cons_succ]
    exact getD_cons_set_perm d x t j (by simpa using hj)
  | x :: t, i + 1, 0, _, hi, _ => by
    simp only [List.getD_cons_zero, List.getD_cons_succ, List.set_cons_zero,
      List.set_cons_succ]
    exact getD_cons_set_perm d x t i (by simpa using hi)
  | x :: t, i + 1, j + 1, hne, hi, hj => by
    simp only [List.getD_cons_succ, List.set_cons_succ]
    exact (set_set_swap_perm d t i j (by omega) (by simpa using hi) (by simpa using hj)).cons x

/-- C6: for every route and every draw the sampler can produce, `TSP.mutate`
either swaps the values at two distinct positions and returns `True`, or —
when the mutation coin does not fire — leaves the route untouched and
returns `False`; in both cases the multiset of values is unchanged (the
result is a permutation of the input). -/
theorem tsp_mutate_swaps_or_noop {β : Type} [LinearOrderedCommRing β]
    (v : List Nat) (rate u : β) (draw : List Nat)
    (hlen : draw.length = 2) (hnd : draw.Nodup)
    (hmem : ∀ x ∈ draw, x < v.length) (h2 : 2 ≤ v.length) :
    ∃ w b, tspMutateE v rate u draw = .ok (w, b)
      ∧ w.Perm v
      ∧ ((b = true ∧ u < rate
            ∧ ∃ i j, draw = [i, j] ∧ i ≠ j ∧ i < v.length ∧ j < v.length
                ∧ w = (v.set i (v.getD j 0)).set j (v.getD i 0))
         ∨ (b = false ∧ ¬u < rate ∧ w = v)) := by
  by_cases hu : u < rate
  · match draw, hlen with
    | [i, j], _ =>
      have hij : i ≠ j := by
        intro hcontra
        subst hcontra
        simp at hnd
      have hi : i < v.length := hmem i (by simp)
      have hj : j < v.length := hmem j (by simp)
      refine ⟨(v.set i (v.getD j 0)).set j (v.getD i 0), true, ?_, ?_, ?_⟩
      · unfold tspMutateE
        rw [if_pos hu, sampleE_eq_of_valid h2 (by simp) hnd hmem]
      · exact set_set_swap_perm 0 v i j hij hi hj
      · exact Or.inl ⟨rfl, hu, i, j, rfl, hij, hi, hj, rfl⟩
  · refine ⟨v, false, ?_, List.Perm.refl v, Or.inr ⟨rfl, hu, rfl⟩⟩
    unfold tspMutateE
    rw [if_neg hu]

/-- Witness for C6 at a concrete route and firing coin. -/
theorem tsp_mutate_swaps_or_noop_witness :
    ∃ w b, tspMutateE [0, 1, 2] (1 : Int) 0 [0, 2] = .ok (w, b)
      ∧ w.Perm [0, 1, 2]
      ∧ ((b = true ∧ (0 : Int) < 1
            ∧ ∃ i j, ([0, 2] : List Nat) = [i, j] ∧ i ≠ j ∧ i < ([0, 1, 2] : List Nat).length
                ∧ j < ([0, 1, 2] : List Nat).length
                ∧ w = (([0, 1, 2] : List Nat).set i (([0, 1, 2] : List Nat).getD j 0)).set j
                    (([0, 1, 2] : List Nat).getD i 0))
         ∨ (b = false ∧ ¬(0 : Int) < 1 ∧ w = [0, 1, 2])) :=
  tsp_mutate_swaps_or_noop [0, 1, 2] 1 0 [0, 2] (by decide) (by decide)
    (by decide) (by decide)

/-- The tournament fold keeps the first-drawn contestant among those of
maximal fitness: the result splits the contestant list, every contestant
before the winner has strictly smaller fitness, and no contestant beats the
winner. -/
theorem foldl_tournament_spec {ι β : Type} [LinearOrderedCommRing β] (f : ι → β) :
    ∀ (l : List ι) (c : ι),
      ∃ pre post,
        c :: l = pre ++ (l.foldl (fun best x => if f best < f x then x else best) c) :: post
        ∧ (∀ y ∈ pre, f y < f (l.foldl (fun best x => if f best < f x then x else best) c))
        ∧ (∀ y ∈ c :: l, f y ≤ f (l.foldl (fun best x => if f best < f x then x else best) c))
  | [], c => ⟨[], [], rfl, by simp, by simp⟩
  | x :: xs, c => by
    simp only [List.foldl_cons]
    by_cases hcx : f c < f x
    · rw [if_pos hcx]
      obtain ⟨pre, post, hsplit, hpre, hmax⟩ := foldl_tournament_spec f xs x
      refine ⟨c :: pre, post, ?_, ?_, ?_⟩
      · rw [List.cons_append, ← hsplit]
      · intro y hy
        rcases List.mem_cons.mp hy with rfl | hy
        · exact lt_of_lt_of_le hcx (hmax x (List.mem_cons_self x xs))
        · exact hpre y hy
      · intro y hy
        rcases List.mem_cons.mp hy with rfl | hy
        · exact le_of_lt (lt_of_lt_of_le hcx (hmax x (List.mem_cons_self x xs)))
        · exact hmax y hy
    · rw [if_neg hcx]
      obtain ⟨pre, post, hsplit, hpre, hmax⟩ := foldl_tournament_spec f xs c
      cases pre with
      | nil =>
        simp only [List.nil_append] at hsplit
        have hhead : c = xs.foldl (fun best x => if f best < f x then x else best) c :=
          (List.cons.injEq _ _ _ _ ▸ hsplit).1
        refine ⟨[], x :: xs, ?_, by simp, ?_⟩
        · rw [List.nil_append, ← hhead]
        · intro y hy
          rcases List.mem_cons.mp hy with rfl | hy
          · exact hmax _ (List.mem_cons_self _ _)
          · rcases List.mem_cons.mp hy with rfl | hy
            · exact le_trans (le_of_not_lt hcx) (hmax _ (List.mem_cons_self _ _))
            · exact hmax y (List.mem_cons_of_mem _ hy)
      | cons a pre2 =>
        simp only [List.cons_append] at hsplit
        have hac : c = a := (List.cons.injEq _ _ _ _ ▸ hsplit).1
        have hxs : xs = pre2 ++ (xs.foldl (fun best x => if f best < f x then x else best) c) :: post :=
          (List.cons.injEq _ _ _ _ ▸ hsplit).2
        have hcw : f c < f (xs.foldl (fun best x => if f best < f x then x else best) c) := by
          rw [congrArg f hac]
          exact hpre _ (List.mem_cons_self _ _)
        refine ⟨c :: x :: pre2, post, ?_, ?_, ?_⟩
        · rw [List.cons_append, List.cons_append, ← hxs]
        · intro y hy
          rcases List.mem_cons.mp hy with rfl | hy
          · exact hcw
          · rcases List.mem_cons.mp hy with rfl | hy
            · exact lt_of_le_of_lt (le_of_not_lt hcx) hcw
            · exact hpre y (List.mem_cons_of_mem _ hy)
        · intro y hy
          rcases List.mem_cons.mp hy with rfl | hy
          · exact hmax _ (List.mem_cons_self _ _)
          · rcases List.mem_cons.mp hy with rfl | hy
            · exact le_trans (le_of_not_lt hcx) (le_of_lt hcw)
            · exact hmax y (List.mem_cons_of_mem _ hy)

/-- C5: for every population, every tournament size `1 ≤ k ≤ n`, and every
draw `random.sample` can produce (`k` distinct in-range indices),
`tournament_selection` succeeds and returns a contestant of maximal fitness
among the drawn contestants, and on ties the first-drawn one: the contestant
list splits around the winner with every earlier contestant of strictly
smaller fitness. -/
theorem tournament_selection_first_seen_max {ι β : Type} [LinearOrderedCommRing β]
    (pool : Population ι β) (k : Nat) (draw : List Nat)
    (hlen : draw.length = k) (hnd : draw.Nodup)
    (hmem : ∀ x ∈ draw, x < pool.individuals.length)
    (hk : 1 ≤ k) (hkn : k ≤ pool.individuals.length) :
    ∃ w pre post,
      pool.tournamentSelectionE k draw = .ok w
      ∧ draw.filterMap (fun i => pool.individuals[i]?) = pre ++ w :: post
      ∧ (∀ y ∈ pre, pool.fitness y < pool.fitness w)
      ∧ (∀ y ∈ draw.filterMap (fun i => pool.individuals[i]?), pool.fitness y ≤ pool.fitness w) := by
  have hsample := sampleE_eq_of_valid hkn hlen hnd hmem
  cases draw with
  | nil =>
    simp at hlen
    omega
  | cons d ds =>
    have hd : d < pool.individuals.length := hmem d (List.mem_cons_self d ds)
    have hcons : (d :: ds).filterMap (fun i => pool.individuals[i]?)
        = pool.individuals[d] :: ds.filterMap (fun i => pool.individuals[i]?) := by
      rw [List.filterMap_cons, List.getElem?_eq_getElem hd]
    obtain ⟨pre, post, hsplit, hpre, hmax⟩ :=
      foldl_tournament_spec pool.fitness (ds.filterMap (fun i => pool.individuals[i]?))
        pool.individuals[d]
    refine ⟨_, pre, post, ?_, ?_, hpre, ?_⟩
    · unfold Population.tournamentSelectionE
      rw [hsample]
      simp only [hcons]
    · rw [hcons, hsplit]
    · intro y hy
      rw [hcons] at hy
      exact hmax y hy

/-- Witness for C5: a 2-contestant tournament on the demo population. -/
theorem tournament_selection_first_seen_max_witness :
    ∃ w pre post,
      poolDemo0.tournamentSelectionE 2 [0, 1] = .ok w
      ∧ ([0, 1] : List Nat).filterMap (fun i => poolDemo0.individuals[i]?) = pre ++ w :: post
      ∧ (∀ y ∈ pre, poolDemo0.fitness y < poolDemo0.fitness w)
      ∧ (∀ y ∈ ([0, 1] : List Nat).filterMap (fun i => poolDemo0.individuals[i]?),
          poolDemo0.fitness y ≤ poolDemo0.fitness w) :=
  tournament_selection_first_seen_max poolDemo0 2 [0, 1] (by decide) (by decide)
    (by decide) (by decide) (by decide)

/-- The copied segment is a sublist of the first parent. -/
theorem tspSeg_sublist (p1 : List Nat) (s e : Nat) : (tspSeg p1 s e).Sublist p1 :=
  (List.take_sublist _ _).trans (List.drop_sublist _ _)

/-- Length of the copied segment for in-range cut points. -/
theorem tspSeg_length (p1 : List Nat) (s e : Nat) (he : e ≤ p1.length) (hse : s ≤ e) :
    (tspSeg p1 s e).length = e - s := by
  unfold tspSeg
  rw [List.length_take, List.length_drop]
  omega

/-- The cities of the second parent that lie in the copied segment are a
permutation of the segment (both are duplicate-free with the same members). -/
theorem filter_mem_seg_perm (p1 p2 : List Nat) (s e : Nat)
    (hnd : p1.Nodup) (hp : p2.Perm p1) :
    (p2.filter (fun c => decide (c ∈ tspSeg p1 s e))).Perm (tspSeg p1 s e) := by
  have hsegnd : (tspSeg p1 s e).Nodup := (tspSeg_sublist p1 s e).nodup hnd
  have hp2nd : p2.Nodup := hp.nodup_iff.mpr hnd
  refine List.perm_of_nodup_nodup_toFinset_eq (hp2nd.filter _) hsegnd ?_
  ext a
  simp only [List.mem_toFinset, List.mem_filter, decide_eq_true_eq]
  constructor
  · exact fun h => h.2
  · intro ha
    exact ⟨hp.mem_iff.mpr ((tspSeg_sublist p1 s e).subset ha), ha⟩

/-- The leftover-city filter is the boolean negation of the segment filter. -/
theorem tspRest_eq_filter_not (p1 p2 : List Nat) (s e : Nat) :
    tspRest p1 p2 s e = p2.filter (fun c => !decide (c ∈ tspSeg p1 s e)) := by
  unfold tspRest
  congr 1
  funext c
  simp [decide_not]

/-- Length of the leftover cities for in-range cut points. -/
theorem tspRest_length (p1 p2 : List Nat) (s e : Nat) (hnd : p1.Nodup) (hp : p2.Perm p1)
    (hse : s ≤ e) (he : e ≤ p1.length) :
    (tspRest p1 p2 s e).length = p1.length - (e - s) := by
  have hlen := (List.filter_append_perm (fun c => decide (c ∈ tspSeg p1 s e)) p2).length_eq
  rw [List.length_append] at hlen
  have hin := (filter_mem_seg_perm p1 p2 s e hnd hp).length_eq
  have hseg := tspSeg_length p1 s e he hse
  have hp2len : p2.length = p1.length := hp.length_eq
  rw [← tspRest_eq_filter_not] at hlen
  omega

/-- C4: for all parents that are valid permutations of the same city set and
for every pair of cut points the operator can draw (`s < e ≤ size - 1`),
`TSP.pair` yields a child that is a permutation of the same set, whose
positions `s..e` hold exactly the segment copied from the first parent, and
whose remaining cities appear in the second parent's relative order (the
subsequence of the child outside the segment equals the corresponding
subsequence of the second parent). -/
theorem tsp_pair_is_valid_permutation (p1 p2 : List Nat) (s e : Nat)
    (hnd : p1.Nodup) (hp : p2.Perm p1) (hse : s < e) (he : e < p1.length) :
    (tspPairCore p1 p2 s e).Perm p1
    ∧ ((tspPairCore p1 p2 s e).drop s).take (e - s) = tspSeg p1 s e
    ∧ (tspPairCore p1 p2 s e).filter (fun c => decide (c ∉ tspSeg p1 s e))
        = p2.filter (fun c => decide (c ∉ tspSeg p1 s e)) := by
  have hseg := tspSeg_length p1 s e (le_of_lt he) (le_of_lt hse)
  have hrestlen := tspRest_length p1 p2 s e hnd hp (le_of_lt hse) (le_of_lt he)
  have htakelen : ((tspRest p1 p2 s e).take s).length = s := by
    rw [List.length_take]
    omega
  refine ⟨?_, ?_, ?_⟩
  · have h1 : tspPairCore p1 p2 s e =
        (tspRest p1 p2 s e).take s ++ (tspSeg p1 s e ++ (tspRest p1 p2 s e).drop s) := by
      unfold tspPairCore
      rw [List.append_assoc]
    rw [h1]
    refine (List.Perm.append_left _ List.perm_append_comm).trans ?_
    rw [← List.append_assoc, List.take_append_drop]
    refine (List.Perm.append_left _ (filter_mem_seg_perm p1 p2 s e hnd hp).symm).trans ?_
    refine List.perm_append_comm.trans ?_
    rw [tspRest_eq_filter_not]
    exact (List.filter_append_perm _ p2).trans hp
  · unfold tspPairCore
    rw [List.append_assoc, List.drop_left' htakelen, List.take_left' hseg]
  · unfold tspPairCore
    rw [List.filter_append, List.filter_append]
    have hseg0 : (tspSeg p1 s e).filter (fun c => decide (c ∉ tspSeg p1 s e)) = [] := by
      rw [List.filter_eq_nil_iff]
      intro a ha
      simp [ha]
    have htake : ((tspRest p1 p2 s e).take s).filter (fun c => decide (c ∉ tspSeg p1 s e))
        = (tspRest p1 p2 s e).take s := by
      rw [List.filter_eq_self]
      intro a ha
      exact (List.mem_filter.mp ((List.take_sublist _ _).subset ha)).2
    have hdrop : ((tspRest p1 p2 s e).drop s).filter (fun c => decide (c ∉ tspSeg p1 s e))
        = (tspRest p1 p2 s e).drop s := by
      rw [List.filter_eq_self]
      intro a ha
      exact (List.mem_filter.mp ((List.drop_sublist _ _).subset ha)).2
    rw [hseg0, htake, hdrop, List.append_nil, List.take_append_drop]
    rfl

/-- Witness for C4: crossover of two concrete 4-city parents with cut
points 1 and 3. -/
theorem tsp_pair_is_valid_permutation_witness :
    (tspPairCore [0, 1, 2, 3] [3, 2, 1, 0] 1 3).Perm [0, 1, 2, 3]
    ∧ ((tspPairCore [0, 1, 2, 3] [3, 2, 1, 0] 1 3).drop 1).take (3 - 1) = tspSeg [0, 1, 2, 3] 1 3
    ∧ (tspPairCore [0, 1, 2, 3] [3, 2, 1, 0] 1 3).filter
          (fun c => decide (c ∉ tspSeg [0, 1, 2, 3] 1 3))
        = ([3, 2, 1, 0] : List Nat).filter (fun c => decide (c ∉ tspSeg [0, 1, 2, 3] 1 3)) :=
  tsp_pair_is_valid_permutation [0, 1, 2, 3] [3, 2, 1, 0] 1 3 (by decide) (by decide)
    (by decide) (by decide)

/-- C3 amended: no invalid-parameter condition is checked at construction
time — engine construction always succeeds, for every parameter
combination — and the errors surface only at use time, depending on the
population size.  With `population_size ≥ 2` and
`tournament_size > population_size`, the `ValueError` from `random.sample`
is raised at the first tournament selection inside `Evolution.step`, i.e. at
call time.  With `population_size = 1` the offspring loop is empty, so no
tournament ever runs and an oversized tournament size raises nothing at all.
With `population_size = 0` the first `get_best_individual` use raises
`IndexError` before any tournament. -/
theorem construction_never_validates {β : Type} [LinearOrderedCommRing β]
    (size tsize nOff : Nat) (rate alpha : β) (fitness : List Nat → β)
    (initRoutes : Nat → List Nat) (rands : Nat → OffspringRand β) :
    (evolutionInitE size fitness nOff rate alpha initRoutes tsize).isOk = true
    ∧ (2 ≤ size → size < tsize →
        evolutionStep (populationInit size fitness initRoutes) tsize rate rands
          = .error Err.valueError)
    ∧ (size = 1 →
        (evolutionStep (populationInit size fitness initRoutes) tsize rate rands).isOk = true)
    ∧ (size = 0 →
        (populationInit size fitness initRoutes).getBestIndividual = none
        ∧ evolutionStep (populationInit size fitness initRoutes) tsize rate rands
            = .error Err.indexError) := by
  have hlen : ∀ n, (populationInit n fitness initRoutes).individuals.length = n := by
    intro n
    unfold populationInit
    simp [List.length_insertionSort]
  refine ⟨rfl, ?_, ?_, ?_⟩
  · intro h2 ht
    have hne : (populationInit size fitness initRoutes).individuals ≠ [] := by
      intro hcontra
      have := hlen size
      rw [hcontra] at this
      simp at this
      omega
    obtain ⟨elite, helite⟩ :
        ∃ x, (populationInit size fitness initRoutes).getBestIndividual = some x := by
      unfold Population.getBestIndividual
      exact Option.isSome_iff_exists.mp (List.getLast?_isSome.mpr hne)
    have htour : ∀ draw, (populationInit size fitness initRoutes).tournamentSelectionE tsize draw
        = .error Err.valueError := by
      intro draw
      unfold Population.tournamentSelectionE
      rw [hlen size, sampleE_error_of_large draw ht]
    have hrange : List.range ((populationInit size fitness initRoutes).individuals.length - 1)
        = 0 :: (List.range (size - 2)).map Nat.succ := by
      rw [hlen size, show size - 1 = (size - 2) + 1 by omega, List.range_succ_eq_map]
    unfold evolutionStep
    split
    · rename_i heq
      rw [helite] at heq
      exact Option.noConfusion heq
    · rename_i elite2 heq
      rw [hrange, List.foldlM_cons]
      simp only [htour]
      rfl
  · intro h1
    subst h1
    have hne : (populationInit 1 fitness initRoutes).individuals ≠ [] := by
      intro hcontra
      have := hlen 1
      rw [hcontra] at this
      simp at this
    obtain ⟨elite, helite⟩ :
        ∃ x, (populationInit 1 fitness initRoutes).getBestIndividual = some x := by
      unfold Population.getBestIndividual
      exact Option.isSome_iff_exists.mp (List.getLast?_isSome.mpr hne)
    unfold evolutionStep
    split
    · rename_i heq
      rw [helite] at heq
      exact Option.noConfusion heq
    · rename_i elite2 heq
      rw [show List.range ((populationInit 1 fitness initRoutes).individuals.length - 1) = []
            from by rw [hlen 1]; rfl]
      rfl
  · intro h0
    subst h0
    have hnil : (populationInit 0 fitness initRoutes).individuals = [] := by
      unfold populationInit
      rfl
    have hbest : (populationInit 0 fitness initRoutes).getBestIndividual = none := by
      unfold Population.getBestIndividual
      rw [hnil]
      rfl
    refine ⟨hbest, ?_⟩
    unfold evolutionStep
    rw [hbest]

/-- Witness for the amended C3: the three population-size regimes at the
demo parameters, each with `tournament_size = 3` larger than the pool. -/
theorem construction_never_validates_witness :
    (evolutionInitE 2 fitDemo 30 (0 : Int) 0 initDemo 3).isOk = true
    ∧ evolutionStep (populationInit 2 fitDemo initDemo) 3 0 randDemo0
        = .error Err.valueError
    ∧ (evolutionStep (populationInit 1 fitDemo initDemo) 3 0 randDemo0).isOk = true
    ∧ (populationInit 0 fitDemo initDemo).getBestIndividual = none
    ∧ evolutionStep (populationInit 0 fitDemo initDemo) 3 0 randDemo0
        = .error Err.indexError :=
  ⟨(construction_never_validates 2 3 30 0 0 fitDemo initDemo randDemo0).1,
   (construction_never_validates 2 3 30 0 0 fitDemo initDemo randDemo0).2.1
     (by decide) (by decide),
   (construction_never_validates 1 3 30 0 0 fitDemo initDemo randDemo0).2.2.1 rfl,
   ((construction_never_validates 0 3 30 0 0 fitDemo initDemo randDemo0).2.2.2 rfl).1,
   ((construction_never_validates 0 3 30 0 0 fitDemo initDemo randDemo0).2.2.2 rfl).2⟩

/-- C9 amended: within the embedded core the only environment the run
touches beyond its return value is console printing and exactly the two plot
files saved under `results/`; every completing run writes exactly those two
files, and no run reads or writes environment variables or the network. -/
theorem run_effects_exactly_two_plot_files {β : Type} [LinearOrderedCommRing β] [Div β]
    (norm : β × β → β) (cities : List (β × β)) (cityNames : Option (List String))
    (populationSize tournamentSize : Nat) (mutationRate : β)
    (nOffsprings nEpochs : Nat) (crossoverAlpha : β) (verbose : Bool)
    (initRoutes : Nat → List Nat) (epochRands : Nat → Nat → OffspringRand β)
    (hok : (runTsp norm cities cityNames populationSize tournamentSize mutationRate
        nOffsprings nEpochs crossoverAlpha verbose initRoutes epochRands).1.isOk = true) :
    (runTsp norm cities cityNames populationSize tournamentSize mutationRate
        nOffsprings nEpochs crossoverAlpha verbose initRoutes epochRands).2.filter
          Effect.isFileWrite
        = [.fileWrite "results/tsp_final_route.png", .fileWrite "results/tsp_length_history.png"]
    ∧ (runTsp norm cities cityNames populationSize tournamentSize mutationRate
        nOffsprings nEpochs crossoverAlpha verbose initRoutes epochRands).2.filter
          Effect.isEnvOrNet = [] := by
  simp only [runTsp] at hok ⊢
  split at hok
  · exact Bool.noConfusion hok
  · split at hok
    · exact Bool.noConfusion hok
    · split at hok
      · exact Bool.noConfusion hok
      · rename_i hcond
        by_cases hv : verbose
        · have hne : ¬nEpochs = 0 := fun h => hcond ⟨hv, h⟩
          simp [hv, hne, Effect.isFileWrite, Effect.isEnvOrNet, List.filter_append]
        · simp [hv, Effect.isFileWrite, Effect.isEnvOrNet, List.filter_append]

/-- Witness for the amended C9: a completing one-epoch verbose run. -/
theorem run_effects_exactly_two_plot_files_witness :
    runDemoOneEpoch.2.filter Effect.isFileWrite
        = [.fileWrite "results/tsp_final_route.png", .fileWrite "results/tsp_length_history.png"]
    ∧ runDemoOneEpoch.2.filter Effect.isEnvOrNet = [] :=
  run_effects_exactly_two_plot_files normDemo citiesDemo none 2 1 0 30 1 0 true initDemo
    (fun _ _ => ⟨[0], [0], [0, 1], 1, [0, 1]⟩) (by decide)

end EvoTSP
